import Mathlib

/-!
# drone-gdm plugin: parameter resolution, credential activation and deployment

A shallow embedding of `plugin.go`: `checkAndFixParams`, `getProjectFromToken`,
`activateServiceAccount`, `interpolateTemplate`, `trace`, `dumpFile` and `Plugin.Exec`.

Modelling conventions

* A Go `string` is a Lean `String` (the inputs are assumed to be valid UTF-8); a Go `error` is
  an `Option String` holding the message, `none` being `nil`.
* `strings.TrimSpace` and `json.Unmarshal` belong to the Go standard library; they are modelled
  here from their documented behaviour (`unicode.IsSpace`, the RFC 8259 grammar checked by the
  `encoding/json` scanner, and the decoding rules for a struct with one tagged string field).
* The operating system is a `World`: the files that exist (by path) and the list of observable
  events (`trace` calls, started processes, text printed).  Results of system calls that the
  program cannot predict (I/O errors, exit status of `gcloud`, the template engine) come from
  an `Env` record.  External processes are assumed not to touch the files of the model.
-/

namespace DroneGdm

/-! ## strings.TrimSpace -/

/-- White space as defined by Go's `unicode.IsSpace` (the Unicode `White_Space` property). -/
def isSpace (c : Char) : Bool :=
  let n := c.toNat
  (9 ≤ n && n ≤ 13) || n == 0x20 || n == 0x85 || n == 0xA0 || n == 0x1680 ||
  (0x2000 ≤ n && n ≤ 0x200A) || n == 0x2028 || n == 0x2029 || n == 0x202F ||
  n == 0x205F || n == 0x3000

/-- Removes the trailing white space of a list of characters. -/
def trimRight : List Char → List Char
  | [] => []
  | c :: cs =>
    match trimRight cs with
    | [] => if isSpace c then [] else [c]
    | r :: rs => c :: r :: rs

/-- Removes the leading white space of a list of characters. -/
def trimLeft (cs : List Char) : List Char := cs.dropWhile isSpace

/-- Leading and trailing white space removed, on character lists. -/
def trimChars (cs : List Char) : List Char := trimRight (trimLeft cs)

/-- Go's `strings.TrimSpace`: the string with all leading and trailing white space removed. -/
def TrimSpace (s : String) : String := ⟨trimChars s.data⟩

/-! ## encoding/json, as far as `json.Unmarshal(data, &token{})` needs it -/

/-- A JSON value.  Numbers carry no payload: only their kind matters to the decoder below. -/
inductive JVal where
  | null
  | bool (b : Bool)
  | num
  | str (s : String)
  | arr (elems : List JVal)
  | obj (members : List (String × JVal))

/-- Lexical tokens of JSON. -/
inductive Tok where
  | lbrace | rbrace | lbrack | rbrack | colon | comma
  | str (s : String)
  | num
  | lit (v : JVal)

/-- One element of a string literal: a character, or the 16-bit unit of a `\uXXXX` escape. -/
inductive StrUnit where
  | raw (c : Char)
  | esc (u : Nat)

/-- The Unicode replacement character U+FFFD. -/
def replacementChar : Char := Char.ofNat 0xFFFD

/-- Escaped unit that is a high (leading) surrogate. -/
def isHighSurrogate (u : Nat) : Bool := 0xD800 ≤ u && u < 0xDC00

/-- Escaped unit that is a low (trailing) surrogate. -/
def isLowSurrogate (u : Nat) : Bool := 0xDC00 ≤ u && u < 0xE000

/-- Decoding of the units of a string literal, as `unquote` of `encoding/json` does: a high
surrogate escape directly followed by a low surrogate escape is one character, any other
surrogate escape becomes U+FFFD.  `pending` is a high surrogate escape just read. -/
def decodeUnits : Option Nat → List StrUnit → List Char
  | none, [] => []
  | some _, [] => [replacementChar]
  | none, .raw c :: r => c :: decodeUnits none r
  | some _, .raw c :: r => replacementChar :: c :: decodeUnits none r
  | none, .esc u :: r =>
    if isHighSurrogate u then decodeUnits (some u) r
    else if isLowSurrogate u then replacementChar :: decodeUnits none r
    else Char.ofNat u :: decodeUnits none r
  | some h, .esc u :: r =>
    if isLowSurrogate u then
      Char.ofNat (0x10000 + (h - 0xD800) * 0x400 + (u - 0xDC00)) :: decodeUnits none r
    else if isHighSurrogate u then replacementChar :: decodeUnits (some u) r
    else replacementChar :: Char.ofNat u :: decodeUnits none r

/-- Where the scanner is inside a number. -/
inductive NumState where
  | neg | zero | int | dot | frac | e | esign | exp

/-- Where the scanner is inside `true`, `false` or `null`: the letters read so far. -/
inductive LitState where
  | t | tr | tru | f | fa | fal | fals | n | nu | nul

/-- State of the lexer between two characters. -/
inductive LexState where
  | start
  | str (acc : List StrUnit)
  | esc (acc : List StrUnit)
  | hex (acc : List StrUnit) (digits : List Nat)
  | num (st : NumState)
  | lit (st : LitState)

/-- White space of the JSON grammar: space, tab, line feed, carriage return. -/
def isJsonSpace (c : Char) : Bool :=
  c.toNat == 0x20 || c.toNat == 9 || c.toNat == 10 || c.toNat == 13

/-- A decimal digit between `lo` and `9`. -/
def isDigitFrom (lo : Nat) (c : Char) : Bool := 48 + lo ≤ c.toNat && c.toNat ≤ 57

/-- Value of a hexadecimal digit. -/
def hexVal (c : Char) : Option Nat :=
  let n := c.toNat
  if 48 ≤ n ∧ n ≤ 57 then some (n - 48)
  else if 97 ≤ n ∧ n ≤ 102 then some (n - 87)
  else if 65 ≤ n ∧ n ≤ 70 then some (n - 55)
  else none

/-- The lexer at the start of a token. -/
def stepStart (c : Char) : Option (LexState × List Tok) :=
  if isJsonSpace c then some (.start, [])
  else if c = '{' then some (.start, [.lbrace])
  else if c = '}' then some (.start, [.rbrace])
  else if c = '[' then some (.start, [.lbrack])
  else if c = ']' then some (.start, [.rbrack])
  else if c = ':' then some (.start, [.colon])
  else if c = ',' then some (.start, [.comma])
  else if c = '"' then some (.str [], [])
  else if c = '-' then some (.num .neg, [])
  else if c = '0' then some (.num .zero, [])
  else if isDigitFrom 1 c then some (.num .int, [])
  else if c = 't' then some (.lit .t, [])
  else if c = 'f' then some (.lit .f, [])
  else if c = 'n' then some (.lit .n, [])
  else none

/-- The number is complete: it is emitted and `c` starts the next token. -/
def endNum (c : Char) : Option (LexState × List Tok) :=
  match stepStart c with
  | none => none
  | some (st, toks) => some (st, Tok.num :: toks)

/-- The lexer inside a number: `-? (0 | [1-9][0-9]*) (. [0-9]+)? ([eE] [+-]? [0-9]+)?`. -/
def stepNum (st : NumState) (c : Char) : Option (LexState × List Tok) :=
  let digit : Bool := isDigitFrom 0 c
  let isE : Bool := c = 'e' ∨ c = 'E'
  match st with
  | .neg =>
    if c = '0' then some (.num .zero, [])
    else if isDigitFrom 1 c then some (.num .int, [])
    else none
  | .zero =>
    if c = '.' then some (.num .dot, [])
    else if isE then some (.num .e, [])
    else endNum c
  | .int =>
    if digit then some (.num .int, [])
    else if c = '.' then some (.num .dot, [])
    else if isE then some (.num .e, [])
    else endNum c
  | .dot => if digit then some (.num .frac, []) else none
  | .frac =>
    if digit then some (.num .frac, [])
    else if isE then some (.num .e, [])
    else endNum c
  | .e =>
    if c = '+' ∨ c = '-' then some (.num .esign, [])
    else if digit then some (.num .exp, [])
    else none
  | .esign => if digit then some (.num .exp, []) else none
  | .exp => if digit then some (.num .exp, []) else endNum c

/-- The lexer inside a literal name. -/
def stepLit (st : LitState) (c : Char) : Option (LexState × List Tok) :=
  match st with
  | .t => if c = 'r' then some (.lit .tr, []) else none
  | .tr => if c = 'u' then some (.lit .tru, []) else none
  | .tru => if c = 'e' then some (.start, [.lit (.bool true)]) else none
  | .f => if c = 'a' then some (.lit .fa, []) else none
  | .fa => if c = 'l' then some (.lit .fal, []) else none
  | .fal => if c = 's' then some (.lit .fals, []) else none
  | .fals => if c = 'e' then some (.start, [.lit (.bool false)]) else none
  | .n => if c = 'u' then some (.lit .nu, []) else none
  | .nu => if c = 'l' then some (.lit .nul, []) else none
  | .nul => if c = 'l' then some (.start, [.lit .null]) else none

/-- One character of input. -/
def lexStep : LexState → Char → Option (LexState × List Tok)
  | .start, c => stepStart c
  | .num st, c => stepNum st c
  | .lit st, c => stepLit st c
  | .str acc, c =>
    if c = '"' then some (.start, [.str ⟨decodeUnits none acc.reverse⟩])
    else if c = '\\' then some (.esc acc, [])
    else if c.toNat < 0x20 then none
    else some (.str (.raw c :: acc), [])
  | .esc acc, c =>
    if c = '"' ∨ c = '\\' ∨ c = '/' then some (.str (.raw c :: acc), [])
    else if c = 'b' then some (.str (.raw (Char.ofNat 8) :: acc), [])
    else if c = 'f' then some (.str (.raw (Char.ofNat 12) :: acc), [])
    else if c = 'n' then some (.str (.raw '\n' :: acc), [])
    else if c = 'r' then some (.str (.raw '\r' :: acc), [])
    else if c = 't' then some (.str (.raw '\t' :: acc), [])
    else if c = 'u' then some (.hex acc [], [])
    else none
  | .hex acc ds, c =>
    match hexVal c with
    | none => none
    | some d =>
      match ds with
      | [d1, d2, d3] => some (.str (.esc (((d1 * 16 + d2) * 16 + d3) * 16 + d) :: acc), [])
      | _ => some (.hex acc (ds ++ [d]), [])

/-- The end of the input: only between tokens or after a complete number. -/
def lexEnd : LexState → Option (List Tok)
  | .start => some []
  | .num .zero => some [.num]
  | .num .int => some [.num]
  | .num .frac => some [.num]
  | .num .exp => some [.num]
  | _ => none

/-- The tokens of the input read from state `st`, `none` on a lexical error. -/
def lexFrom : LexState → List Char → Option (List Tok)
  | st, [] => lexEnd st
  | st, c :: cs =>
    match lexStep st c with
    | none => none
    | some (st1, toks) =>
      match lexFrom st1 cs with
      | none => none
      | some rest => some (toks ++ rest)

/-- A container under construction, with its elements in reverse order; an object also holds
the key whose value is being read. -/
inductive Frame where
  | arr (elems : List JVal)
  | obj (members : List (String × JVal)) (key : Option String)

/-- What the parser expects next. -/
inductive Mode where
  | value
  | valueOrEnd
  | keyOrEnd
  | key
  | colon
  | afterValue
  | done (v : JVal)

/-- State of the parser: the open containers, innermost first, and the expectation. -/
structure PState where
  stack : List Frame
  mode : Mode

/-- A complete value is attached to the innermost open container, or is the result. -/
def attach (v : JVal) : List Frame → Option PState
  | [] => some ⟨[], .done v⟩
  | .arr es :: st => some ⟨.arr (v :: es) :: st, .afterValue⟩
  | .obj ms (some k) :: st => some ⟨.obj ((k, v) :: ms) none :: st, .afterValue⟩
  | .obj _ none :: _ => none

/-- A token that starts a value. -/
def beginValue (stack : List Frame) : Tok → Option PState
  | .str s => attach (.str s) stack
  | .num => attach .num stack
  | .lit v => attach v stack
  | .lbrack => some ⟨.arr [] :: stack, .valueOrEnd⟩
  | .lbrace => some ⟨.obj [] none :: stack, .keyOrEnd⟩
  | _ => none

/-- A string token where an object key is expected. -/
def beginKey (stack : List Frame) : Tok → Option PState
  | .str k =>
    match stack with
    | .obj ms none :: st => some ⟨.obj ms (some k) :: st, .colon⟩
    | _ => none
  | _ => none

/-- One token of input. -/
def parseStep (s : PState) (t : Tok) : Option PState :=
  match s.mode, t, s.stack with
  | .value, t, stack => beginValue stack t
  | .valueOrEnd, .rbrack, .arr es :: st => attach (.arr es.reverse) st
  | .valueOrEnd, t, stack => beginValue stack t
  | .keyOrEnd, .rbrace, .obj ms none :: st => attach (.obj ms.reverse) st
  | .keyOrEnd, t, stack => beginKey stack t
  | .key, t, stack => beginKey stack t
  | .colon, .colon, stack => some ⟨stack, .value⟩
  | .afterValue, .comma, .arr es :: st => some ⟨.arr es :: st, .value⟩
  | .afterValue, .comma, .obj ms none :: st => some ⟨.obj ms none :: st, .key⟩
  | .afterValue, .rbrack, .arr es :: st => attach (.arr es.reverse) st
  | .afterValue, .rbrace, .obj ms none :: st => attach (.obj ms.reverse) st
  | _, _, _ => none

/-- The value the tokens form, read from parser state `s`. -/
def parseFrom : PState → List Tok → Option JVal
  | s, [] =>
    match s.mode with
    | .done v => some v
    | _ => none
  | s, t :: ts =>
    match parseStep s t with
    | none => none
    | some s1 => parseFrom s1 ts

/-- The JSON value a text denotes, `none` when the text is not valid JSON. -/
def parseJSON (text : List Char) : Option JVal :=
  match lexFrom .start text with
  | none => none
  | some toks => parseFrom ⟨[], .value⟩ toks

/-- Key matching of `encoding/json` for a struct field whose name is made of ASCII letters
other than `k` and `s`: "preferring an exact match but also accepting a case-insensitive
match" (ASCII case folding only). -/
def foldEq : List Char → List Char → Bool
  | [], [] => true
  | n :: ns, c :: cs => (n == c || (n.isAlpha && n.toLower == c.toLower)) && foldEq ns cs
  | _, _ => false

/-- The object key `key` selects the field tagged `json:"project_id"`. -/
def matchesProjectId (key : String) : Bool := foldEq "project_id".data key.data

/-- The struct `token`. -/
structure token where
  ProjectID : String

/-- Decoding of the members of an object into a `token`, in the order of the text: a member
whose key selects `ProjectID` stores a string, leaves the field alone for `null`, and is a
type error (remembered in `ok := false`) for any other value; other members are skipped. -/
def decodeMembers : List (String × JVal) → token × Bool → token × Bool
  | [], acc => acc
  | (k, v) :: ms, (t, ok) =>
    if matchesProjectId k then
      match v with
      | .str s => decodeMembers ms (⟨s⟩, ok)
      | .null => decodeMembers ms (t, ok)
      | _ => decodeMembers ms (t, false)
    else decodeMembers ms (t, ok)

/-- Decoding of a JSON value into a `token{}`: an object is decoded member by member, `null`
has no effect, and any other value is a type error. -/
def decodeToken : JVal → Option token
  | .obj ms =>
    match decodeMembers ms (⟨""⟩, true) with
    | (t, true) => some t
    | (_, false) => none
  | .null => some ⟨""⟩
  | _ => none

/-- Go's `json.Unmarshal([]byte(j), &t)` for `t := token{}`: the decoded struct, or `none`
when an error is returned (invalid JSON, or a value of the wrong type). -/
def unmarshalToken (j : String) : Option token :=
  match parseJSON j.data with
  | none => none
  | some v => decodeToken v

/-- The function `getProjectFromToken`. -/
def getProjectFromToken (j : String) : String :=
  match unmarshalToken j with
  | none => ""
  | some t => t.ProjectID

/-! ## The plugin parameters and `checkAndFixParams` -/

/-- The type of `Plugin.Vars`, a `map[string]interface{}` filled from a JSON object. -/
abbrev Vars := List (String × JVal)

/-- The struct `Plugin`. -/
structure Plugin where
  Action : String
  Async : Bool
  ConfigTemplate : String
  CreatePolicy : String
  DeletePolicy : String
  Deployment : String
  Description : String
  Dryrun : Bool
  GcloudCmd : String
  OutputFile : String
  Preview : Bool
  Project : String
  Token : String
  Vars : Vars
  Verbose : Bool

/-- The function `checkAndFixParams`.  As in Go, the parameter set is returned together with
the error, also when the error is not `nil`. -/
def checkAndFixParams (p : Plugin) : Plugin × Option String :=
  let p := { p with Token := TrimSpace p.Token }
  if p.Token = "" then (p, some "Missing required param: token")
  else
    let p := { p with Project := TrimSpace p.Project }
    let r : Plugin × Bool :=
      if p.Project = "" then
        let p := { p with Project := getProjectFromToken p.Token }
        (p, decide (p.Project = ""))
      else (p, false)
    let p := r.1
    if r.2 then (p, some "Missing required param: project")
    else if p.Deployment = "" then (p, some "Missing required param: deployment")
    else
      let sdkPath := "/google-cloud-sdk"
      let p := { p with GcloudCmd := TrimSpace p.GcloudCmd }
      let p := if p.GcloudCmd = "" then { p with GcloudCmd := sdkPath ++ "/bin/gcloud" } else p
      let p := { p with ConfigTemplate := TrimSpace p.ConfigTemplate }
      let p := if p.ConfigTemplate = "" then { p with ConfigTemplate := ".gdm.yml" } else p
      (p, none)

/-! ## The operating system as seen by the plugin -/

/-- The files that exist, by path, with their contents. -/
abbrev Files := String → Option String

/-- What an observer of the run sees. -/
inductive Event where
  /-- The line `fmt.Printf("%+v\n", p.Vars)` prints. -/
  | printVars (vars : Vars)
  /-- Text written to standard output. -/
  | print (text : String)
  /-- A call `trace(cmd)`, `argv` being `cmd.Args`; it prints `traceLine argv`. -/
  | trace (argv : List String)
  /-- A call `cmd.Run()`: the external process `argv` is started. -/
  | run (argv : List String)

/-- The line `trace` writes for a command: `"+ %s\n"` of the arguments joined by spaces. -/
def traceLine (argv : List String) : String := "+ " ++ " ".intercalate argv ++ "\n"

/-- State of the world: the files, and the events so far, oldest first. -/
structure World where
  files : Files
  out : List Event

/-- The world after one more event. -/
def World.emit (w : World) (e : Event) : World := { w with out := w.out ++ [e] }

/-- The world after `path` has been (over)written with `content`. -/
def World.write (w : World) (path content : String) : World :=
  { w with files := fun q => if q = path then some content else w.files q }

/-- The world after the file at `path` has been removed. -/
def World.remove (w : World) (path : String) : World :=
  { w with files := fun q => if q = path then none else w.files q }

/-- Result of `ioutil.WriteFile`: success, or an error that may leave a file behind (`left`
is the content of the file after a failure that created or truncated it, `none` when the
failure left the path as it was). -/
inductive WriteResult where
  | ok
  | failed (err : String) (left : Option String)

/-- Outcomes of the system and library calls of one run that the program does not decide. -/
structure Env where
  /-- `ioutil.WriteFile(keyPath, []byte(p.Token), 0600)`. -/
  writeToken : WriteResult
  /-- The error of `os.Remove(keyPath)` on an existing file. -/
  removeToken : Option String
  /-- The error of `cmd.Run()` for `gcloud auth activate-service-account`. -/
  runActivate : Option String
  /-- `os.Getwd()`. -/
  getwd : Except String String
  /-- `filepath.Join`. -/
  join : String → String → String
  /-- `filepath.Base`. -/
  base : String → String
  /-- The error of `ioutil.ReadFile(inPath)` on an existing file. -/
  readTemplate : Option String
  /-- The error of `template.New(bn).Option("missingkey=error").Parse(text)`. -/
  parseTemplate : String → String → Option String
  /-- The error of `os.Create(p.OutputFile)`. -/
  createOutput : Option String
  /-- `tmpl.Execute(f, p.Vars)` for the template parsed from `text`: the bytes written to `f`
  and the error (with `missingkey=error`, a key absent from the data is an error). -/
  executeTemplate : String → Vars → String × Option String
  /-- The error of `cmd.Run()` for the deployment command. -/
  runDeploy : Option String

/-- The function `trace`. -/
def trace (argv : List String) (w : World) : World := w.emit (.trace argv)

/-- The function `dumpFile` (with `os.Stdout` as writer); reading fails when the file does
not exist. -/
def dumpFile (caption path : String) (w : World) : World :=
  let w := w.emit (.print ("---START " ++ caption ++ "---\n"))
  let w :=
    match w.files path with
    | none =>
      w.emit (.print ("error reading file: open " ++ path ++ ": no such file or directory\n"))
    | some data => w.emit (.print (data ++ "\n"))
  w.emit (.print ("---END " ++ caption ++ "---\n"))

/-- The path `keyPath` of the ephemeral credential file. -/
def keyPath : String := "/tmp/gcloud.json"

/-- The command line of the credential activation. -/
def activateCmd (p : Plugin) : List String :=
  [p.GcloudCmd, "auth", "activate-service-account", "--key-file", keyPath]

/-- The deferred function of `activateServiceAccount`: `os.Remove(keyPath)`, with a warning
on failure. -/
def removeKeyFile (env : Env) (w : World) : World :=
  match w.files keyPath with
  | none =>
    w.emit (.print ("Warning: error removing token file: remove " ++ keyPath ++
      ": no such file or directory\n"))
  | some _ =>
    match env.removeToken with
    | some err => w.emit (.print ("Warning: error removing token file: " ++ err ++ "\n"))
    | none => w.remove keyPath

/-- The function `activateServiceAccount`. -/
def activateServiceAccount (env : Env) (p : Plugin) (w : World) : World × Option String :=
  match env.writeToken with
  | .failed err left =>
    let w :=
      match left with
      | none => w
      | some content => w.write keyPath content
    (w, some ("Error writing token file: " ++ err ++ "\n"))
  | .ok =>
    let w := w.write keyPath p.Token
    -- from here on the removal of the key file is deferred to the return
    let w := trace (activateCmd p) w
    let w := w.emit (.run (activateCmd p))
    match env.runActivate with
    | some err => (removeKeyFile env w, some ("Unable to activate service account: " ++ err))
    | none => (removeKeyFile env w, none)

/-- The function `interpolateTemplate`. -/
def interpolateTemplate (env : Env) (p : Plugin) (w : World) : World × Option String :=
  match env.getwd with
  | .error err => (w, some ("Error while getting working directory: " ++ err ++ "\n"))
  | .ok wd =>
    let inPath := env.join wd p.ConfigTemplate
    let bn := env.base inPath
    match w.files inPath with
    | none =>
      (w, some ("Error finding template: stat " ++ inPath ++ ": no such file or directory\n"))
    | some blob =>
      match env.readTemplate with
      | some err => (w, some ("Error reading template: " ++ err ++ "\n"))
      | none =>
        match env.parseTemplate bn blob with
        | some err => (w, some ("Error parsing template: " ++ err ++ "\n"))
        | none =>
          match env.createOutput with
          | some err => (w, some ("Error creating deployment config file: " ++ err ++ "\n"))
          | none =>
            let w := w.write p.OutputFile ""
            let r := env.executeTemplate blob p.Vars
            let w := w.write p.OutputFile r.1
            match r.2 with
            | some err => (w, some ("Error executing deployment template: " ++ err ++ "\n"))
            | none => (w, none)

/-- The argument vector `deployArgs` that `Exec` builds (lines 59 to 91). -/
def deployArgs (p : Plugin) : List String :=
  let deployArgs := ["--project", p.Project, "deployment-manager", "deployments", p.Action,
    p.Deployment, "--config", p.OutputFile]
  let deployArgs := if p.Preview then deployArgs ++ ["--preview"] else deployArgs
  let deployArgs := if p.Async then deployArgs ++ ["--async"] else deployArgs
  let deployArgs :=
    if p.CreatePolicy ≠ "" then deployArgs ++ ["--create-policy", p.CreatePolicy]
    else deployArgs
  let deployArgs :=
    if p.DeletePolicy ≠ "" then deployArgs ++ ["--delete-policy", p.DeletePolicy]
    else deployArgs
  let deployArgs :=
    if p.Description ≠ "" then deployArgs ++ ["--description=" ++ p.Description]
    else deployArgs
  deployArgs

/-- The command line of the deployment: `exec.Command(p.GcloudCmd, deployArgs...)`. -/
def deployCmd (p : Plugin) : List String := p.GcloudCmd :: deployArgs p

/-- The method `Plugin.Exec`. -/
def Exec (env : Env) (p : Plugin) (w : World) : World × Option String :=
  let w := if p.Verbose then w.emit (.printVars p.Vars) else w
  match checkAndFixParams p with
  | (_, some err) => (w, some err)
  | (p, none) =>
    match activateServiceAccount env p w with
    | (w, some err) => (w, some ("error in activateServiceAccount: " ++ err))
    | (w, none) =>
      -- the error `interpolateTemplate` returns is dropped
      let w := (interpolateTemplate env p w).1
      let w := if p.Verbose then dumpFile "DEPLOYMENT CONFIGURATION" p.OutputFile w else w
      let w := trace (deployCmd p) w
      if !p.Dryrun then
        let w := w.emit (.run (deployCmd p))
        match env.runDeploy with
        | some err => (w, some ("Unable to update deployment: " ++ err))
        | none => (w, none)
      else (w, none)

/-! ## Auxiliary definitions for the statements -/

/-- The project `checkAndFixParams` settles on: the explicit one, or the one of the token. -/
def resolvedProject (p : Plugin) : String :=
  if TrimSpace p.Project = "" then getProjectFromToken (TrimSpace p.Token) else TrimSpace p.Project

/-- The value of a text parameter after trimming and defaulting. -/
def orDefault (s dflt : String) : String := if TrimSpace s = "" then dflt else TrimSpace s

/-- A valid parameter set: action `update`, project `proj1`, deployment `dep1`, preview on. -/
def exampleParams : Plugin :=
  { Action := "update", Async := false, ConfigTemplate := ".gdm.yml", CreatePolicy := "",
    DeletePolicy := "", Deployment := "dep1", Description := "", Dryrun := false,
    GcloudCmd := "", OutputFile := ".drone-gdm.yml", Preview := true, Project := "proj1",
    Token := "\x7b\"project_id\":\"proj0\"\x7d", Vars := [], Verbose := false }

/-- Neither a token nor a deployment. -/
def paramsNoTokenNoDeployment : Plugin := { exampleParams with Token := "", Deployment := "" }

/-- No project, no token. -/
def paramsNoProjectNoToken : Plugin := { exampleParams with Token := "", Project := "" }

/-- A deployment name made of white space only. -/
def paramsBlankDeployment : Plugin := { exampleParams with Deployment := "  " }

/-- No explicit project, and a token whose `project_id` is padded with spaces. -/
def paramsPaddedProjectId : Plugin :=
  { exampleParams with Project := "", Token := "\x7b\"project_id\":\" x \"\x7d" }

/-- No explicit project, and a token with two members that both select `ProjectID`. -/
def paramsTwoProjectIds : Plugin :=
  { exampleParams with
    Project := ""
    Token := "\x7b\"project_id\":\"a\",\"PROJECT_ID\":\"b\"\x7d" }

/-- The values of the members of an object that select the field `ProjectID`, in order. -/
def projectIdValues (ms : List (String × JVal)) : List JVal :=
  (ms.filter (fun kv => matchesProjectId kv.1)).map Prod.snd

/-- A JSON value that a string field accepts without error: a string or `null`. -/
def isStringOrNull : JVal → Bool
  | .str _ => true
  | .null => true
  | _ => false

/-- What `encoding/json` finds for the field `ProjectID` in a JSON value, stated on the
value itself.  `HoldsProjectId v none`: `v` has no member whose name matches `project_id`
up to ASCII letter case (in particular when `v` is not an object).
`HoldsProjectId v (some s)`: `v` is an object, the last such member is the string `s`, and
the earlier such members are strings or `null`. -/
def HoldsProjectId (v : JVal) (r : Option String) : Prop :=
  match r with
  | none => ∀ ms, v = .obj ms → projectIdValues ms = []
  | some s => ∃ ms vs, v = .obj ms ∧ projectIdValues ms = vs ++ [.str s] ∧
      ∀ x ∈ vs, isStringOrNull x = true

/-- No explicit project, and an empty JSON object as token. -/
def paramsEmptyObjectToken : Plugin := { exampleParams with Project := "", Token := " \x7b\x7d " }

/-- The external processes started, in order. -/
def runs (es : List Event) : List (List String) :=
  es.filterMap fun e =>
    match e with
    | .run argv => some argv
    | _ => none

/-- The commands handed to `trace`, in order. -/
def traces (es : List Event) : List (List String) :=
  es.filterMap fun e =>
    match e with
    | .trace argv => some argv
    | _ => none

/-- The argument vector of the deployment command as the specification describes it: the
base arguments, then each optional flag when its parameter is set, in the fixed order
preview, async, create-policy, delete-policy, description. -/
def specDeployArgs (p : Plugin) : List String :=
  ["--project", p.Project, "deployment-manager", "deployments", p.Action, p.Deployment,
    "--config", p.OutputFile] ++
  (if p.Preview then ["--preview"] else []) ++
  (if p.Async then ["--async"] else []) ++
  (if p.CreatePolicy ≠ "" then ["--create-policy", p.CreatePolicy] else []) ++
  (if p.DeletePolicy ≠ "" then ["--delete-policy", p.DeletePolicy] else []) ++
  (if p.Description ≠ "" then ["--description=" ++ p.Description] else [])

/-- An environment in which every call succeeds; the working directory is `/drone/src`. -/
def exampleEnv : Env :=
  { writeToken := .ok
    removeToken := none
    runActivate := none
    getwd := .ok "/drone/src"
    join := fun dir name => dir ++ "/" ++ name
    base := fun path => path
    readTemplate := none
    parseTemplate := fun _ _ => none
    createOutput := none
    executeTemplate := fun text _ => (text, none)
    runDeploy := none }

/-- The files of a checkout that holds the template `.gdm.yml`. -/
def exampleFiles : Files := fun path =>
  if path = "/drone/src/.gdm.yml" then some "resources: []\n" else none

/-- No file at all. -/
def noFiles : Files := fun _ => none

/-- The part of `Exec` that follows a successful credential activation (lines 52 to 105). -/
def deployStage (env : Env) (p : Plugin) (w : World) : World × Option String :=
  let w := (interpolateTemplate env p w).1
  let w := if p.Verbose then dumpFile "DEPLOYMENT CONFIGURATION" p.OutputFile w else w
  let w := trace (deployCmd p) w
  if !p.Dryrun then
    let w := w.emit (.run (deployCmd p))
    match env.runDeploy with
    | some err => (w, some ("Unable to update deployment: " ++ err))
    | none => (w, none)
  else (w, none)

/-- The world in which `Exec` starts the credential activation. -/
def afterVerbose (p : Plugin) (w : World) : World :=
  if p.Verbose then w.emit (.printVars p.Vars) else w

/-- An environment in which only the removal of the key file fails. -/
def envRemoveFails : Env :=
  { exampleEnv with removeToken := some "remove /tmp/gcloud.json: operation not permitted" }

/-- An environment in which only the rendering of the template fails, on a missing key. -/
def envRenderFails : Env :=
  { exampleEnv with
    executeTemplate := fun _ _ => ("", some "map has no entry for key \"name\"") }

/-! ## Facts about `TrimSpace` -/

theorem trimRight_cons (c : Char) (cs : List Char) :
    trimRight (c :: cs) =
      match trimRight cs with
      | [] => if isSpace c then [] else [c]
      | r :: rs => c :: r :: rs := rfl

theorem trimRight_idem (cs : List Char) : trimRight (trimRight cs) = trimRight cs := by
  induction cs with
  | nil => rfl
  | cons c cs ih =>
    cases h : trimRight cs with
    | nil =>
      by_cases hc : isSpace c = true
      · simp [trimRight, h, hc]
      · simp [trimRight, h, hc]
    | cons r rs =>
      rw [h] at ih
      rw [trimRight_cons c cs, h]
      show trimRight (c :: r :: rs) = c :: r :: rs
      rw [trimRight_cons, ih]

theorem trimRight_cons_of_not_space (c : Char) (cs : List Char) (hc : isSpace c = false) :
    ∃ rs, trimRight (c :: cs) = c :: rs := by
  cases h : trimRight cs with
  | nil => exact ⟨[], by simp [trimRight, h, hc]⟩
  | cons r rs => exact ⟨r :: rs, by simp [trimRight, h]⟩

theorem trimLeft_head (cs : List Char) :
    trimLeft cs = [] ∨ ∃ c rs, trimLeft cs = c :: rs ∧ isSpace c = false := by
  induction cs with
  | nil => exact Or.inl rfl
  | cons c cs ih =>
    by_cases hc : isSpace c = true
    · simpa [trimLeft, List.dropWhile_cons, hc] using ih
    · exact Or.inr ⟨c, cs, by simp [trimLeft, List.dropWhile_cons, hc], by simpa using hc⟩

theorem trimChars_idem (cs : List Char) : trimChars (trimChars cs) = trimChars cs := by
  unfold trimChars
  rcases trimLeft_head cs with h | ⟨c, rs, h, hc⟩
  · rw [h]; rfl
  · rw [h]
    obtain ⟨rs1, h1⟩ := trimRight_cons_of_not_space c rs hc
    have h2 : trimLeft (trimRight (c :: rs)) = trimRight (c :: rs) := by
      rw [h1]; simp [trimLeft, List.dropWhile_cons, hc]
    rw [h2, trimRight_idem]

theorem TrimSpace_idem (s : String) : TrimSpace (TrimSpace s) = TrimSpace s := by
  simp [TrimSpace, trimChars_idem]

/-! ## Facts about `checkAndFixParams` -/

theorem checkAndFixParams_error (p : Plugin) :
    (checkAndFixParams p).2 =
      if TrimSpace p.Token = "" then some "Missing required param: token"
      else if resolvedProject p = "" then some "Missing required param: project"
      else if p.Deployment = "" then some "Missing required param: deployment"
      else none := by
  unfold checkAndFixParams resolvedProject
  by_cases h1 : TrimSpace p.Token = ""
  · simp [h1]
  · by_cases h2 : TrimSpace p.Project = ""
    · by_cases h3 : getProjectFromToken (TrimSpace p.Token) = ""
      · simp [h1, h2, h3]
      · by_cases h4 : p.Deployment = "" <;> simp [h1, h2, h3, h4]
    · by_cases h4 : p.Deployment = "" <;> simp [h1, h2, h4]

theorem checkAndFixParams_project (p : Plugin) (h : TrimSpace p.Token ≠ "") :
    (checkAndFixParams p).1.Project = resolvedProject p := by
  unfold checkAndFixParams resolvedProject
  by_cases h2 : TrimSpace p.Project = ""
  · by_cases h3 : getProjectFromToken (TrimSpace p.Token) = ""
    · simp [h, h2, h3]
    · by_cases h4 : p.Deployment = ""
      · simp [h, h2, h3, h4]
      · by_cases h5 : TrimSpace p.GcloudCmd = "" <;> by_cases h6 : TrimSpace p.ConfigTemplate = "" <;>
          simp [h, h2, h3, h4, h5, h6]
  · by_cases h4 : p.Deployment = ""
    · simp [h, h2, h4]
    · by_cases h5 : TrimSpace p.GcloudCmd = "" <;> by_cases h6 : TrimSpace p.ConfigTemplate = "" <;>
          simp [h, h2, h4, h5, h6]

theorem checkAndFixParams_ok (p : Plugin) (h : (checkAndFixParams p).2 = none) :
    checkAndFixParams p =
      ({ p with
          Token := TrimSpace p.Token
          Project := resolvedProject p
          GcloudCmd := orDefault p.GcloudCmd "/google-cloud-sdk/bin/gcloud"
          ConfigTemplate := orDefault p.ConfigTemplate ".gdm.yml" }, none) := by
  rw [checkAndFixParams_error] at h
  by_cases h1 : TrimSpace p.Token = ""
  · simp [h1] at h
  · by_cases h3 : resolvedProject p = ""
    · simp [h1, h3] at h
    · by_cases h4 : p.Deployment = ""
      · simp [h1, h3, h4] at h
      · unfold resolvedProject at h3 ⊢
        unfold checkAndFixParams orDefault
        by_cases h2 : TrimSpace p.Project = "" <;>
          by_cases h5 : TrimSpace p.GcloudCmd = "" <;>
          by_cases h6 : TrimSpace p.ConfigTemplate = "" <;>
          simp_all

theorem orDefault_idem (s dflt : String) (h1 : TrimSpace dflt = dflt) (h2 : dflt ≠ "") :
    orDefault (orDefault s dflt) dflt = orDefault s dflt := by
  unfold orDefault
  by_cases h : TrimSpace s = ""
  · simp [h, h1, h2]
  · simp [h, TrimSpace_idem]

/-! ## Claims about `checkAndFixParams` -/

/-- C5, as stated, fails: with neither token nor deployment the error names the token, which
is checked first, not the deployment. -/
theorem missing_deployment_error_names_token :
    paramsNoTokenNoDeployment.Deployment = "" ∧
    (checkAndFixParams paramsNoTokenNoDeployment).2 = some "Missing required param: token" ∧
    (checkAndFixParams paramsNoTokenNoDeployment).2 ≠
      some "Missing required param: deployment" := by
  decide

/-- C5, amended: a parameter set without deployment is always rejected by
`checkAndFixParams`; the error names the deployment exactly when the token is not blank and
a project is available (given, or found in the token), and names the token or the project,
which are checked first, otherwise. -/
theorem missing_deployment_rejected (p : Plugin) (hd : p.Deployment = "") :
    (checkAndFixParams p).2 ≠ none ∧
    (TrimSpace p.Token ≠ "" → resolvedProject p ≠ "" →
      (checkAndFixParams p).2 = some "Missing required param: deployment") ∧
    (TrimSpace p.Token = "" →
      (checkAndFixParams p).2 = some "Missing required param: token") ∧
    (TrimSpace p.Token ≠ "" → resolvedProject p = "" →
      (checkAndFixParams p).2 = some "Missing required param: project") := by
  rw [checkAndFixParams_error]
  refine ⟨?_, ?_, ?_, ?_⟩
  · by_cases h1 : TrimSpace p.Token = "" <;> by_cases h2 : resolvedProject p = "" <;>
      simp [h1, h2, hd]
  · intro h1 h2; simp [h1, h2, hd]
  · intro h1; simp [h1]
  · intro h1 h2; simp [h1, h2]

theorem missing_deployment_rejected_witness :
    (checkAndFixParams { exampleParams with Deployment := "" }).2 ≠ none :=
  (missing_deployment_rejected { exampleParams with Deployment := "" } rfl).1

/-- C8: the code does not trim `Deployment`.  A deployment of two spaces is accepted, while
the same parameter set with `Token`, `Project` and `Deployment` trimmed is rejected as
missing its deployment. -/
theorem blank_deployment_accepted :
    (checkAndFixParams paramsBlankDeployment).2 = none ∧
    (checkAndFixParams paramsBlankDeployment).1.Deployment = "  " ∧
    (checkAndFixParams
      { paramsBlankDeployment with
        Token := TrimSpace paramsBlankDeployment.Token
        Project := TrimSpace paramsBlankDeployment.Project
        Deployment := TrimSpace paramsBlankDeployment.Deployment }).2 =
      some "Missing required param: deployment" := by
  decide

theorem resolved_nonempty_aux (p : Plugin) (h : (checkAndFixParams p).2 = none) :
    TrimSpace p.Token ≠ "" ∧ p.Deployment ≠ "" ∧ resolvedProject p ≠ "" := by
  rw [checkAndFixParams_error] at h
  by_cases h1 : TrimSpace p.Token = ""
  · simp [h1] at h
  · by_cases h3 : resolvedProject p = ""
    · simp [h1, h3] at h
    · by_cases h4 : p.Deployment = ""
      · simp [h1, h3, h4] at h
      · exact ⟨h1, h4, h3⟩

/-- C9: after a successful `checkAndFixParams` the token, the deployment and the project of
the returned parameter set are all non-empty. -/
theorem resolved_fields_nonempty (p : Plugin) (h : (checkAndFixParams p).2 = none) :
    (checkAndFixParams p).1.Token ≠ "" ∧
    (checkAndFixParams p).1.Deployment ≠ "" ∧
    (checkAndFixParams p).1.Project ≠ "" := by
  have hv := checkAndFixParams_ok p h
  obtain ⟨h1, h4, h3⟩ := resolved_nonempty_aux p h
  rw [hv]
  exact ⟨h1, h4, h3⟩

theorem resolved_fields_nonempty_witness :
    (checkAndFixParams exampleParams).2 = none ∧
    (checkAndFixParams exampleParams).1.Token ≠ "" ∧
    (checkAndFixParams exampleParams).1.Deployment ≠ "" ∧
    (checkAndFixParams exampleParams).1.Project ≠ "" :=
  ⟨by decide, resolved_fields_nonempty exampleParams (by decide)⟩

/-- C10, as stated, fails: the project taken from the token is stored untrimmed, so a second
pass trims it.  With `project_id` equal to `" x "` the first pass succeeds with project
`" x "` and the second pass returns project `"x"`. -/
theorem second_pass_trims_derived_project :
    (checkAndFixParams paramsPaddedProjectId).2 = none ∧
    (checkAndFixParams paramsPaddedProjectId).1.Project = " x " ∧
    (checkAndFixParams (checkAndFixParams paramsPaddedProjectId).1).1.Project = "x" ∧
    checkAndFixParams (checkAndFixParams paramsPaddedProjectId).1 ≠
      ((checkAndFixParams paramsPaddedProjectId).1, none) := by
  refine ⟨by decide, by decide, by decide, ?_⟩
  intro h
  have h2 := congrArg (fun r => r.1.Project) h
  revert h2
  decide

/-- C10, amended: if `checkAndFixParams p` succeeds with `q`, then `checkAndFixParams q`
succeeds too and returns `q` with every field unchanged except possibly `Project`, which is
kept when it is blank and trimmed otherwise.  Hence `q` is returned unchanged whenever its
project has no leading or trailing white space, in particular whenever the project of `p`
was given explicitly. -/
theorem second_pass_keeps_all_but_project (p q : Plugin)
    (h : checkAndFixParams p = (q, none)) :
    checkAndFixParams q =
      ({ q with Project := if TrimSpace q.Project = "" then q.Project else TrimSpace q.Project },
        none) ∧
    (TrimSpace q.Project = q.Project → checkAndFixParams q = (q, none)) ∧
    (TrimSpace p.Project ≠ "" → checkAndFixParams q = (q, none)) := by
  have hp2 : (checkAndFixParams p).2 = none := by rw [h]
  have hv := checkAndFixParams_ok p hp2
  have hne := resolved_nonempty_aux p hp2
  obtain ⟨ht, hd, hpr⟩ := hne
  have hq : q = { p with
      Token := TrimSpace p.Token
      Project := resolvedProject p
      GcloudCmd := orDefault p.GcloudCmd "/google-cloud-sdk/bin/gcloud"
      ConfigTemplate := orDefault p.ConfigTemplate ".gdm.yml" } := by
    rw [h] at hv
    exact (Prod.mk.inj hv).1
  have hqT : TrimSpace q.Token = q.Token := by rw [hq]; exact TrimSpace_idem _
  have hqTne : TrimSpace q.Token ≠ "" := by rw [hqT, hq]; exact ht
  have hqP : q.Project = resolvedProject p := by rw [hq]
  have hqD : q.Deployment ≠ "" := by rw [hq]; exact hd
  have hres : resolvedProject q =
      if TrimSpace q.Project = "" then q.Project else TrimSpace q.Project := by
    unfold resolvedProject
    by_cases hb : TrimSpace q.Project = ""
    · simp only [hb, if_true]
      rw [hqT]
      by_cases hpb : TrimSpace p.Project = ""
      · rw [hqP, hq]; simp [resolvedProject, hpb]
      · exfalso
        have : q.Project = TrimSpace p.Project := by rw [hqP]; simp [resolvedProject, hpb]
        rw [this, TrimSpace_idem] at hb
        exact hpb hb
    · simp [hb]
  have hresne : resolvedProject q ≠ "" := by
    rw [hres]
    by_cases hb : TrimSpace q.Project = ""
    · simp only [hb, if_true]; rw [hqP]; exact hpr
    · simp [hb]
  have hq2 : (checkAndFixParams q).2 = none := by
    rw [checkAndFixParams_error]; simp [hqTne, hresne, hqD]
  have hvq := checkAndFixParams_ok q hq2
  have hG : orDefault q.GcloudCmd "/google-cloud-sdk/bin/gcloud" = q.GcloudCmd := by
    rw [hq]; exact orDefault_idem _ _ (by decide) (by decide)
  have hC : orDefault q.ConfigTemplate ".gdm.yml" = q.ConfigTemplate := by
    rw [hq]; exact orDefault_idem _ _ (by decide) (by decide)
  have main : checkAndFixParams q =
      ({ q with Project := if TrimSpace q.Project = "" then q.Project else TrimSpace q.Project },
        none) := by
    rw [hvq, hqT, hG, hC, hres]
  refine ⟨main, ?_, ?_⟩
  · intro hfix
    rw [main, hfix]; simp
  · intro hpb
    have : TrimSpace q.Project = q.Project := by
      rw [hqP]; simp [resolvedProject, hpb, TrimSpace_idem]
    rw [main, this]; simp

theorem second_pass_keeps_all_but_project_witness :
    checkAndFixParams (checkAndFixParams exampleParams).1 =
      ((checkAndFixParams exampleParams).1, none) :=
  (second_pass_keeps_all_but_project exampleParams (checkAndFixParams exampleParams).1
    (Prod.ext rfl (by decide))).2.2 (by decide)

/-! ## Facts about the JSON reader -/

theorem isSpace_iff (c : Char) :
    isSpace c = true ↔
      (9 ≤ c.toNat ∧ c.toNat ≤ 13) ∨ c.toNat = 32 ∨ c.toNat = 133 ∨ c.toNat = 160 ∨
      c.toNat = 5760 ∨ (8192 ≤ c.toNat ∧ c.toNat ≤ 8202) ∨ c.toNat = 8232 ∨
      c.toNat = 8233 ∨ c.toNat = 8239 ∨ c.toNat = 8287 ∨ c.toNat = 12288 := by
  unfold isSpace
  generalize c.toNat = n
  simp only [Bool.or_eq_true, Bool.and_eq_true, decide_eq_true_eq, beq_iff_eq]
  omega

/-- A test against a character that is not white space fails on white space. -/
theorem skip_test {α : Type} (c d : Char) (x y : α) (hd : isSpace d = false)
    (hs : isSpace c = true) : (if c = d then x else y) = y := by
  have hne : c ≠ d := by
    intro hcd
    rw [hcd, hd] at hs
    exact Bool.noConfusion hs
  rw [if_neg hne]

theorem not_digit_of_space (lo : Nat) (c : Char) (hs : isSpace c = true) :
    isDigitFrom lo c = false := by
  have hn := (isSpace_iff c).1 hs
  cases hd : isDigitFrom lo c with
  | false => rfl
  | true =>
    exfalso
    simp only [isDigitFrom, Bool.and_eq_true, decide_eq_true_eq] at hd
    omega

theorem stepStart_of_space (c : Char) (hs : isSpace c = true) :
    stepStart c = if isJsonSpace c then some (.start, []) else none := by
  unfold stepStart
  rw [skip_test c '{' _ _ (by decide) hs, skip_test c '}' _ _ (by decide) hs,
    skip_test c '[' _ _ (by decide) hs, skip_test c ']' _ _ (by decide) hs,
    skip_test c ':' _ _ (by decide) hs, skip_test c ',' _ _ (by decide) hs,
    skip_test c '"' _ _ (by decide) hs, skip_test c '-' _ _ (by decide) hs,
    skip_test c '0' _ _ (by decide) hs, not_digit_of_space 1 c hs,
    skip_test c 't' _ _ (by decide) hs, skip_test c 'f' _ _ (by decide) hs,
    skip_test c 'n' _ _ (by decide) hs]
  simp

theorem ne_of_space (c d : Char) (hd : isSpace d = false) (hs : isSpace c = true) : c ≠ d := by
  intro hcd
  rw [hcd, hd] at hs
  exact Bool.noConfusion hs

theorem endNum_of_space (c : Char) (hs : isSpace c = true) :
    endNum c = if isJsonSpace c then some (.start, [Tok.num]) else none := by
  unfold endNum
  rw [stepStart_of_space c hs]
  by_cases hj : isJsonSpace c = true
  · simp [hj]
  · simp [hj]

theorem stepNum_of_space (st : NumState) (c : Char) (hs : isSpace c = true) :
    stepNum st c =
      match st with
      | .zero => endNum c
      | .int => endNum c
      | .frac => endNum c
      | .exp => endNum c
      | _ => none := by
  have hd0 := not_digit_of_space 0 c hs
  have hd1 := not_digit_of_space 1 c hs
  have h1 := ne_of_space c '.' (by decide) hs
  have h2 := ne_of_space c 'e' (by decide) hs
  have h3 := ne_of_space c 'E' (by decide) hs
  have h4 := ne_of_space c '+' (by decide) hs
  have h5 := ne_of_space c '-' (by decide) hs
  have h6 := ne_of_space c '0' (by decide) hs
  cases st <;> simp [stepNum, hd0, hd1, h1, h2, h3, h4, h5, h6]

theorem stepLit_of_space (st : LitState) (c : Char) (hs : isSpace c = true) :
    stepLit st c = none := by
  have h1 := ne_of_space c 'r' (by decide) hs
  have h2 := ne_of_space c 'u' (by decide) hs
  have h3 := ne_of_space c 'e' (by decide) hs
  have h4 := ne_of_space c 'a' (by decide) hs
  have h5 := ne_of_space c 'l' (by decide) hs
  have h6 := ne_of_space c 's' (by decide) hs
  cases st <;> simp [stepLit, h1, h2, h3, h4, h5, h6]

theorem hexVal_of_space (c : Char) (hs : isSpace c = true) : hexVal c = none := by
  have hn := (isSpace_iff c).1 hs
  unfold hexVal
  simp only []
  rw [if_neg (by omega), if_neg (by omega), if_neg (by omega)]

/-- A white-space character read where the input may also end: the tokens are the same as
when the input ends there. -/
theorem lexEnd_of_space_step (st st1 : LexState) (c : Char) (t1 rest : List Tok)
    (hs : isSpace c = true) (hstep : lexStep st c = some (st1, t1))
    (hend : lexEnd st1 = some rest) : lexEnd st = some (t1 ++ rest) := by
  cases st with
  | start =>
    simp only [lexStep] at hstep
    rw [stepStart_of_space c hs] at hstep
    by_cases hj : isJsonSpace c = true
    · simp only [hj, if_true, Option.some.injEq, Prod.mk.injEq] at hstep
      obtain ⟨h1, h2⟩ := hstep
      subst h1; subst h2
      simpa [lexEnd] using hend
    · simp [hj] at hstep
  | num ns =>
    simp only [lexStep] at hstep
    rw [stepNum_of_space ns c hs] at hstep
    have key : endNum c = some (st1, t1) → lexEnd st1 = some rest →
        st1 = .start ∧ t1 = [Tok.num] ∧ rest = [] := by
      intro h1 h2
      rw [endNum_of_space c hs] at h1
      by_cases hj : isJsonSpace c = true
      · simp only [hj, if_true, Option.some.injEq, Prod.mk.injEq] at h1
        obtain ⟨h3, h4⟩ := h1
        subst h3; subst h4
        simp only [lexEnd, Option.some.injEq] at h2
        exact ⟨rfl, rfl, h2.symm⟩
      · simp [hj] at h1
    cases ns <;> simp only [] at hstep <;>
      first
      | exact absurd hstep (by simp)
      | (obtain ⟨_, h2, h3⟩ := key hstep hend
         subst h2; subst h3
         rfl)
  | lit ls =>
    simp only [lexStep] at hstep
    rw [stepLit_of_space ls c hs] at hstep
    exact absurd hstep (by simp)
  | str acc =>
    simp only [lexStep] at hstep
    rw [skip_test c '"' _ _ (by decide) hs, skip_test c '\\' _ _ (by decide) hs] at hstep
    by_cases hlt : c.toNat < 0x20
    · rw [if_pos hlt] at hstep
      exact absurd hstep (by simp)
    · rw [if_neg hlt] at hstep
      simp only [Option.some.injEq, Prod.mk.injEq] at hstep
      obtain ⟨h1, _⟩ := hstep
      subst h1
      simp [lexEnd] at hend
  | esc acc =>
    simp only [lexStep] at hstep
    have h1 := ne_of_space c '"' (by decide) hs
    have h2 := ne_of_space c '\\' (by decide) hs
    have h3 := ne_of_space c '/' (by decide) hs
    have h4 := ne_of_space c 'b' (by decide) hs
    have h5 := ne_of_space c 'f' (by decide) hs
    have h6 := ne_of_space c 'n' (by decide) hs
    have h7 := ne_of_space c 'r' (by decide) hs
    have h8 := ne_of_space c 't' (by decide) hs
    have h9 := ne_of_space c 'u' (by decide) hs
    simp [h1, h2, h3, h4, h5, h6, h7, h8, h9] at hstep
  | hex acc ds =>
    simp only [lexStep] at hstep
    rw [hexVal_of_space c hs] at hstep
    exact absurd hstep (by simp)

theorem lexFrom_cons (st : LexState) (c : Char) (cs : List Char) :
    lexFrom st (c :: cs) =
      match lexStep st c with
      | none => none
      | some (st1, toks) =>
        match lexFrom st1 cs with
        | none => none
        | some rest => some (toks ++ rest) := rfl

/-- Trailing white space does not change the tokens of a text that lexes. -/
theorem lexFrom_trimRight (cs : List Char) :
    ∀ (st : LexState) (toks : List Tok), lexFrom st cs = some toks →
      lexFrom st (trimRight cs) = some toks := by
  induction cs with
  | nil => intro st toks h; exact h
  | cons c cs ih =>
    intro st toks h
    rw [lexFrom_cons] at h
    cases hstep : lexStep st c with
    | none => rw [hstep] at h; exact absurd h (by simp)
    | some r =>
      obtain ⟨st1, t1⟩ := r
      rw [hstep] at h
      simp only [] at h
      cases hrest : lexFrom st1 cs with
      | none => rw [hrest] at h; exact absurd h (by simp)
      | some rest =>
        rw [hrest] at h
        simp only [Option.some.injEq] at h
        have ih1 := ih st1 rest hrest
        rw [trimRight_cons]
        cases htr : trimRight cs with
        | nil =>
          rw [htr] at ih1
          by_cases hs : isSpace c = true
          · simp only [hs, if_true]
            have := lexEnd_of_space_step st st1 c t1 rest hs hstep ih1
            rw [← h]; exact this
          · simp only [hs]
            show lexFrom st [c] = some toks
            rw [lexFrom_cons, hstep]
            simp only []
            rw [ih1]
            simp only [h]
        | cons r rs =>
          rw [htr] at ih1
          show lexFrom st (c :: r :: rs) = some toks
          rw [lexFrom_cons, hstep]
          simp only []
          rw [ih1]
          simp only [h]

/-- Leading white space does not change the tokens of a text that lexes. -/
theorem lexFrom_trimLeft (cs : List Char) (toks : List Tok)
    (h : lexFrom .start cs = some toks) : lexFrom .start (trimLeft cs) = some toks := by
  induction cs with
  | nil => exact h
  | cons c cs ih =>
    by_cases hs : isSpace c = true
    · have hl : trimLeft (c :: cs) = trimLeft cs := by
        simp [trimLeft, List.dropWhile_cons, hs]
      rw [hl]
      apply ih
      rw [lexFrom_cons] at h
      simp only [lexStep] at h
      rw [stepStart_of_space c hs] at h
      by_cases hj : isJsonSpace c = true
      · simp only [hj, if_true] at h
        cases hrest : lexFrom .start cs with
        | none => rw [hrest] at h; exact absurd h (by simp)
        | some rest => rw [hrest] at h; simpa using h
      · simp [hj] at h
    · have hl : trimLeft (c :: cs) = c :: cs := by
        simp [trimLeft, List.dropWhile_cons, hs]
      rw [hl]; exact h

/-- A text that is valid JSON denotes the same value once trimmed. -/
theorem parseJSON_trimChars (cs : List Char) (v : JVal) (h : parseJSON cs = some v) :
    parseJSON (trimChars cs) = some v := by
  unfold parseJSON at h ⊢
  cases hl : lexFrom .start cs with
  | none => rw [hl] at h; exact absurd h (by simp)
  | some toks =>
    rw [hl] at h
    have h1 := lexFrom_trimLeft cs toks hl
    have h2 := lexFrom_trimRight (trimLeft cs) .start toks h1
    unfold trimChars
    rw [h2]
    exact h

theorem parseJSON_nil : parseJSON [] = none := rfl

theorem trimSpace_ne_empty_of_json (s : String) (v : JVal) (h : parseJSON s.data = some v) :
    TrimSpace s ≠ "" := by
  intro he
  have h1 := parseJSON_trimChars s.data v h
  have h2 : trimChars s.data = [] := by
    have := congrArg String.data he
    simpa [TrimSpace] using this
  rw [h2, parseJSON_nil] at h1
  exact absurd h1 (by simp)

theorem decodeMembers_cons (k : String) (v : JVal) (ms : List (String × JVal)) (t : token)
    (ok : Bool) :
    decodeMembers ((k, v) :: ms) (t, ok) =
      if matchesProjectId k then
        match v with
        | .str s => decodeMembers ms (⟨s⟩, ok)
        | .null => decodeMembers ms (t, ok)
        | _ => decodeMembers ms (t, false)
      else decodeMembers ms (t, ok) := by
  cases v <;> simp [decodeMembers]

theorem decodeMembers_none (ms : List (String × JVal)) (acc : token × Bool)
    (h : projectIdValues ms = []) : decodeMembers ms acc = acc := by
  induction ms with
  | nil => cases acc; rfl
  | cons kv ms ih =>
    obtain ⟨k, v⟩ := kv
    obtain ⟨t, ok⟩ := acc
    rw [decodeMembers_cons]
    by_cases hm : matchesProjectId k = true
    · simp [projectIdValues, List.filter_cons, hm] at h
    · have h1 : projectIdValues ms = [] := by
        simpa [projectIdValues, List.filter_cons, hm] using h
      rw [if_neg hm]; exact ih h1

theorem projectIdValues_cons (k : String) (v : JVal) (ms : List (String × JVal)) :
    projectIdValues ((k, v) :: ms) =
      if matchesProjectId k then v :: projectIdValues ms else projectIdValues ms := by
  by_cases hm : matchesProjectId k = true <;> simp [projectIdValues, List.filter_cons, hm]

theorem decodeMembers_last (ms : List (String × JVal)) :
    ∀ (vs : List JVal) (t : token) (ok : Bool) (s : String),
      projectIdValues ms = vs ++ [.str s] → (∀ v ∈ vs, isStringOrNull v = true) →
      decodeMembers ms (t, ok) = (⟨s⟩, ok) := by
  induction ms with
  | nil =>
    intro vs t ok s h _
    simp [projectIdValues] at h
  | cons kv ms ih =>
    intro vs t ok s h hvs
    obtain ⟨k, v⟩ := kv
    rw [projectIdValues_cons] at h
    rw [decodeMembers_cons]
    by_cases hm : matchesProjectId k = true
    · rw [if_pos hm] at h
      rw [if_pos hm]
      cases vs with
      | nil =>
        simp only [List.nil_append, List.cons.injEq] at h
        obtain ⟨hv, hrest⟩ := h
        subst hv
        simp only []
        exact decodeMembers_none ms _ hrest
      | cons v0 vs1 =>
        simp only [List.cons_append, List.cons.injEq] at h
        obtain ⟨hv, hrest⟩ := h
        subst hv
        have hv0 := hvs v (List.mem_cons_self _ _)
        have hrec : ∀ x ∈ vs1, isStringOrNull x = true :=
          fun x hx => hvs x (List.mem_cons_of_mem _ hx)
        cases v with
        | str t1 => exact ih vs1 _ ok s hrest hrec
        | null => exact ih vs1 _ ok s hrest hrec
        | bool b => simp [isStringOrNull] at hv0
        | num => simp [isStringOrNull] at hv0
        | arr es => simp [isStringOrNull] at hv0
        | obj os => simp [isStringOrNull] at hv0
    · rw [if_neg hm] at h
      rw [if_neg hm]
      exact ih vs t ok s h hvs

theorem decodeToken_of_holds (v : JVal) (r : Option String) (h : HoldsProjectId v r) :
    (match decodeToken v with
      | none => ""
      | some t => t.ProjectID) = r.getD "" := by
  cases r with
  | none =>
    simp only [HoldsProjectId] at h
    cases v with
    | obj ms =>
      have := h ms rfl
      simp only [decodeToken]
      rw [decodeMembers_none ms _ this]
      rfl
    | null => rfl
    | bool b => rfl
    | num => rfl
    | str s => rfl
    | arr es => rfl
  | some s =>
    obtain ⟨ms, vs, hv, hp, hall⟩ := h
    subst hv
    simp only [decodeToken]
    rw [decodeMembers_last ms vs _ _ s hp hall]
    rfl

theorem getProjectFromToken_of_json (j : String) (v : JVal) (h : parseJSON j.data = some v) :
    getProjectFromToken (TrimSpace j) =
      match decodeToken v with
      | none => ""
      | some t => t.ProjectID := by
  have h1 := parseJSON_trimChars j.data v h
  unfold getProjectFromToken unmarshalToken
  show (match (match parseJSON (trimChars j.data) with
      | none => none
      | some v => decodeToken v) with
    | none => ""
    | some t => t.ProjectID) = _
  rw [h1]

/-- C6, as stated, fails: the token below is well-formed JSON whose member `project_id` is
the non-empty string `a`, yet the resolved project is `b`, because `encoding/json` also
stores the member `PROJECT_ID`, whose name matches the field up to letter case. -/
theorem derived_project_follows_last_matching_member :
    TrimSpace paramsTwoProjectIds.Project = "" ∧
    parseJSON paramsTwoProjectIds.Token.data =
      some (.obj [("project_id", .str "a"), ("PROJECT_ID", .str "b")]) ∧
    (checkAndFixParams paramsTwoProjectIds).1.Project = "b" ∧
    (checkAndFixParams paramsTwoProjectIds).1.Project ≠ "a" :=
  ⟨by decide, rfl, by decide, by decide⟩

/-- C6, amended: if `Project` is blank and `Token` is well-formed JSON, an object in which
the last member whose name matches `project_id` up to ASCII letter case is a non-empty
string `s`, every earlier such member being a string or `null` (in particular: an object
with exactly one such member, the string `s`), then the `Project` of the parameter set that
`checkAndFixParams` returns is exactly `s`, and so is not empty. -/
theorem derived_project_is_project_id (p : Plugin) (v : JVal) (s : String)
    (hb : TrimSpace p.Project = "")
    (hj : parseJSON p.Token.data = some v)
    (hu : HoldsProjectId v (some s))
    (hs : s ≠ "") :
    (checkAndFixParams p).1.Project = s ∧ (checkAndFixParams p).1.Project ≠ "" := by
  have ht := trimSpace_ne_empty_of_json p.Token _ hj
  have hg : getProjectFromToken (TrimSpace p.Token) = s := by
    rw [getProjectFromToken_of_json p.Token _ hj, decodeToken_of_holds v _ hu]
    rfl
  have hp : (checkAndFixParams p).1.Project = s := by
    rw [checkAndFixParams_project p ht]
    simp [resolvedProject, hb, hg]
  exact ⟨hp, by rw [hp]; exact hs⟩

theorem derived_project_is_project_id_witness :
    (checkAndFixParams paramsPaddedProjectId).1.Project = " x " ∧
    (checkAndFixParams paramsPaddedProjectId).1.Project ≠ "" :=
  derived_project_is_project_id paramsPaddedProjectId
    (.obj [("project_id", .str " x ")]) " x "
    (by decide) rfl ⟨_, [], rfl, rfl, by simp⟩ (by decide)

/-- C7, as stated, fails: with a blank project and an empty token (which is not valid
JSON) the error names the token, which is checked first, not the project. -/
theorem blank_token_error_names_token :
    TrimSpace paramsNoProjectNoToken.Project = "" ∧
    parseJSON paramsNoProjectNoToken.Token.data = none ∧
    (checkAndFixParams paramsNoProjectNoToken).2 = some "Missing required param: token" ∧
    (checkAndFixParams paramsNoProjectNoToken).2 ≠ some "Missing required param: project" :=
  ⟨by decide, rfl, by decide, by decide⟩

/-- C7, amended: if `Project` is blank and `Token` holds no project identifier, that is,
the token is not blank but, once trimmed, is not valid JSON, or the token is valid JSON
that is not an object or is an object with no member whose name matches `project_id` up to
ASCII letter case, or the token is a JSON object whose `project_id` is the empty string,
then `checkAndFixParams` fails with `Missing required param: project`. -/
theorem project_missing_without_project_id (p : Plugin)
    (hb : TrimSpace p.Project = "")
    (h : (TrimSpace p.Token ≠ "" ∧ parseJSON (TrimSpace p.Token).data = none) ∨
      ∃ v, parseJSON p.Token.data = some v ∧
        (HoldsProjectId v none ∨ HoldsProjectId v (some ""))) :
    (checkAndFixParams p).2 = some "Missing required param: project" := by
  have key : TrimSpace p.Token ≠ "" ∧ getProjectFromToken (TrimSpace p.Token) = "" := by
    rcases h with ⟨ht, hn⟩ | ⟨v, hj, hv⟩
    · refine ⟨ht, ?_⟩
      unfold getProjectFromToken unmarshalToken
      rw [hn]
    · refine ⟨trimSpace_ne_empty_of_json p.Token _ hj, ?_⟩
      rw [getProjectFromToken_of_json p.Token _ hj]
      rcases hv with hv | hv
      · rw [decodeToken_of_holds v _ hv]; rfl
      · rw [decodeToken_of_holds v _ hv]; rfl
  rw [checkAndFixParams_error]
  simp [resolvedProject, hb, key.1, key.2]

theorem project_missing_without_project_id_witness :
    (checkAndFixParams paramsEmptyObjectToken).2 = some "Missing required param: project" :=
  project_missing_without_project_id paramsEmptyObjectToken (by decide)
    (Or.inr ⟨.obj [], rfl, Or.inl (fun ms h => by cases h; rfl)⟩)

/-! ## Runs of `Exec` -/

theorem deployArgs_eq_spec (p : Plugin) : deployArgs p = specDeployArgs p := by
  unfold deployArgs specDeployArgs
  by_cases h1 : p.Preview = true <;> by_cases h2 : p.Async = true <;>
    by_cases h3 : p.CreatePolicy = "" <;> by_cases h4 : p.DeletePolicy = "" <;>
    by_cases h5 : p.Description = "" <;> simp [h1, h2, h3, h4, h5]

theorem runs_append (a b : List Event) : runs (a ++ b) = runs a ++ runs b := by
  simp [runs, List.filterMap_append]

theorem traces_append (a b : List Event) : traces (a ++ b) = traces a ++ traces b := by
  simp [traces, List.filterMap_append]

theorem activate_error_none (env : Env) (p : Plugin) (w : World) :
    (activateServiceAccount env p w).2 = none ↔
      env.writeToken = .ok ∧ env.runActivate = none := by
  unfold activateServiceAccount
  cases hw : env.writeToken with
  | failed err left => simp
  | ok =>
    cases hr : env.runActivate with
    | none => simp
    | some err => simp

theorem activate_world (env : Env) (p : Plugin) (w : World) (hw : env.writeToken = .ok) :
    (activateServiceAccount env p w).1 =
      removeKeyFile env
        ((trace (activateCmd p) (w.write keyPath p.Token)).emit (.run (activateCmd p))) := by
  unfold activateServiceAccount
  rw [hw]
  cases hr : env.runActivate <;> rfl

theorem removeKeyFile_out (env : Env) (w : World) :
    runs (removeKeyFile env w).out = runs w.out ∧
    traces (removeKeyFile env w).out = traces w.out := by
  unfold removeKeyFile
  cases hf : w.files keyPath with
  | none => simp [World.emit, runs, traces, List.filterMap_append]
  | some c =>
    cases hr : env.removeToken with
    | none => simp [World.remove]
    | some err => simp [World.emit, runs, traces, List.filterMap_append]

theorem removeKeyFile_files (env : Env) (w : World) (hr : env.removeToken = none) :
    (removeKeyFile env w).files keyPath = none := by
  unfold removeKeyFile
  cases hf : w.files keyPath with
  | none => simpa [World.emit] using hf
  | some c => simp [hr, World.remove]

theorem interpolateTemplate_out (env : Env) (p : Plugin) (w : World) :
    (interpolateTemplate env p w).1.out = w.out := by
  unfold interpolateTemplate
  cases env.getwd with
  | error e => rfl
  | ok wd =>
    simp only []
    cases w.files (env.join wd p.ConfigTemplate) with
    | none => rfl
    | some blob =>
      simp only []
      cases env.readTemplate with
      | some e => rfl
      | none =>
        simp only []
        cases env.parseTemplate (env.base (env.join wd p.ConfigTemplate)) blob with
        | some e => rfl
        | none =>
          simp only []
          cases env.createOutput with
          | some e => rfl
          | none =>
            simp only []
            cases (env.executeTemplate blob p.Vars).2 <;> rfl

theorem interpolateTemplate_files (env : Env) (p : Plugin) (w : World) (path : String)
    (hp : p.OutputFile ≠ path) :
    (interpolateTemplate env p w).1.files path = w.files path := by
  have hp1 : path ≠ p.OutputFile := fun h => hp h.symm
  unfold interpolateTemplate
  cases env.getwd with
  | error e => rfl
  | ok wd =>
    simp only []
    cases w.files (env.join wd p.ConfigTemplate) with
    | none => rfl
    | some blob =>
      simp only []
      cases env.readTemplate with
      | some e => rfl
      | none =>
        simp only []
        cases env.parseTemplate (env.base (env.join wd p.ConfigTemplate)) blob with
        | some e => rfl
        | none =>
          simp only []
          cases env.createOutput with
          | some e => rfl
          | none =>
            simp only []
            cases (env.executeTemplate blob p.Vars).2 <;> simp [World.write, hp1]

theorem dumpFile_out (caption path : String) (w : World) :
    runs (dumpFile caption path w).out = runs w.out ∧
    traces (dumpFile caption path w).out = traces w.out := by
  unfold dumpFile
  simp only [World.emit]
  split <;> simp [runs, traces, List.filterMap_append]

theorem dumpFile_files (caption path : String) (w : World) :
    (dumpFile caption path w).files = w.files := by
  unfold dumpFile
  simp only [World.emit]
  split <;> rfl

theorem Exec_of_resolved (env : Env) (p q : Plugin) (w : World)
    (hq : checkAndFixParams p = (q, none)) :
    Exec env p w =
      match activateServiceAccount env q (afterVerbose p w) with
      | (w, some err) => (w, some ("error in activateServiceAccount: " ++ err))
      | (w, none) => deployStage env q w := by
  unfold Exec
  simp only [hq]
  rfl

theorem Exec_of_activated (env : Env) (p q : Plugin) (w : World)
    (hq : checkAndFixParams p = (q, none))
    (hact : (activateServiceAccount env q w).2 = none) :
    Exec env p w = deployStage env q (activateServiceAccount env q (afterVerbose p w)).1 := by
  have h1 := (activate_error_none env q w).1 hact
  have h2 := (activate_error_none env q (afterVerbose p w)).2 h1
  rw [Exec_of_resolved env p q w hq]
  cases hr : activateServiceAccount env q (afterVerbose p w) with
  | mk w1 e =>
    rw [hr] at h2
    simp only [] at h2
    subst h2
    rfl

theorem afterVerbose_out (p : Plugin) (files : Files) :
    runs (afterVerbose p ⟨files, []⟩).out = [] ∧ traces (afterVerbose p ⟨files, []⟩).out = [] := by
  unfold afterVerbose
  cases p.Verbose <;> simp [World.emit, runs, traces]

theorem activate_out (env : Env) (p : Plugin) (w : World) (hw : env.writeToken = .ok) :
    runs (activateServiceAccount env p w).1.out = runs w.out ++ [activateCmd p] ∧
    traces (activateServiceAccount env p w).1.out = traces w.out ++ [activateCmd p] := by
  rw [activate_world env p w hw]
  obtain ⟨h1, h2⟩ := removeKeyFile_out env
    ((trace (activateCmd p) (w.write keyPath p.Token)).emit (.run (activateCmd p)))
  rw [h1, h2]
  simp [trace, World.emit, World.write, runs, traces, List.filterMap_append]

theorem activate_files (env : Env) (p : Plugin) (w : World) (hw : env.writeToken = .ok)
    (hr : env.removeToken = none) :
    (activateServiceAccount env p w).1.files keyPath = none := by
  rw [activate_world env p w hw]
  exact removeKeyFile_files env _ hr

theorem deployStage_error (env : Env) (p : Plugin) (w : World) :
    (deployStage env p w).2 =
      if p.Dryrun then none
      else env.runDeploy.map fun err => "Unable to update deployment: " ++ err := by
  unfold deployStage
  cases p.Dryrun with
  | true => rfl
  | false => cases env.runDeploy <;> rfl

theorem deployStage_out (env : Env) (p : Plugin) (w : World) :
    runs (deployStage env p w).1.out = runs w.out ++ (if p.Dryrun then [] else [deployCmd p]) ∧
    traces (deployStage env p w).1.out = traces w.out ++ [deployCmd p] := by
  have hi := interpolateTemplate_out env p w
  have hd := dumpFile_out "DEPLOYMENT CONFIGURATION" p.OutputFile (interpolateTemplate env p w).1
  unfold deployStage
  cases hv : p.Verbose <;> cases hdr : p.Dryrun <;> cases hrd : env.runDeploy <;>
    simp [trace, World.emit, runs_append, traces_append, hi, hd.1, hd.2] <;>
    simp [runs, traces]

theorem deployStage_files (env : Env) (p : Plugin) (w : World) (path : String)
    (hp : p.OutputFile ≠ path) : (deployStage env p w).1.files path = w.files path := by
  have hi := interpolateTemplate_files env p w path hp
  have hd := dumpFile_files "DEPLOYMENT CONFIGURATION" p.OutputFile (interpolateTemplate env p w).1
  unfold deployStage
  cases hv : p.Verbose <;> cases hdr : p.Dryrun <;> cases hrd : env.runDeploy <;>
    simp [trace, World.emit, hi, hd]

theorem activateCmd_ne_deployCmd (p : Plugin) : activateCmd p ≠ deployCmd p := by
  intro h
  unfold activateCmd deployCmd at h
  rw [deployArgs_eq_spec] at h
  simp [specDeployArgs] at h

theorem resolved_keeps_flags (p q : Plugin) (hq : checkAndFixParams p = (q, none)) :
    q.Dryrun = p.Dryrun ∧ q.OutputFile = p.OutputFile ∧ q.Verbose = p.Verbose := by
  have hp2 : (checkAndFixParams p).2 = none := by rw [hq]
  have hv := checkAndFixParams_ok p hp2
  rw [hq] at hv
  have := (Prod.mk.inj hv).1
  subst this
  exact ⟨rfl, rfl, rfl⟩

/-- C1: the code drops the error of `interpolateTemplate`.  With no template file
(first run) and with a render error on a missing key (second run), `interpolateTemplate`
fails in the world `Exec` calls it in, yet `Exec` goes on to trace and to execute the
deployment command and returns `nil`. -/
theorem exec_ignores_interpolation_failure :
    ((interpolateTemplate exampleEnv (checkAndFixParams exampleParams).1
        (activateServiceAccount exampleEnv (checkAndFixParams exampleParams).1
          ⟨noFiles, []⟩).1).2 =
      some "Error finding template: stat /drone/src/.gdm.yml: no such file or directory\n" ∧
     (Exec exampleEnv exampleParams ⟨noFiles, []⟩).2 = none ∧
     traces (Exec exampleEnv exampleParams ⟨noFiles, []⟩).1.out =
       [activateCmd (checkAndFixParams exampleParams).1,
        deployCmd (checkAndFixParams exampleParams).1] ∧
     runs (Exec exampleEnv exampleParams ⟨noFiles, []⟩).1.out =
       [activateCmd (checkAndFixParams exampleParams).1,
        deployCmd (checkAndFixParams exampleParams).1]) ∧
    ((interpolateTemplate envRenderFails (checkAndFixParams exampleParams).1
        (activateServiceAccount envRenderFails (checkAndFixParams exampleParams).1
          ⟨exampleFiles, []⟩).1).2 =
      some "Error executing deployment template: map has no entry for key \"name\"\n" ∧
     (Exec envRenderFails exampleParams ⟨exampleFiles, []⟩).2 = none ∧
     runs (Exec envRenderFails exampleParams ⟨exampleFiles, []⟩).1.out =
       [activateCmd (checkAndFixParams exampleParams).1,
        deployCmd (checkAndFixParams exampleParams).1]) := by
  refine ⟨⟨?_, ?_, ?_, ?_⟩, ?_, ?_, ?_⟩ <;> decide

/-- C2: the argument vector `Exec` builds is the one the specification describes.  For
every parameter set `deployArgs` is the base arguments followed by the optional flags in
the fixed order; whenever resolution (giving `q`) and credential activation succeed, the
command `Exec` hands to `trace`, and runs unless in dry-run mode, is `q.GcloudCmd` with
exactly that vector; and in the scenario action `update`, project `proj1`, deployment
`dep1`, preview on, nothing else set, the vector is
`--project proj1 deployment-manager deployments update dep1 --config <output-file> --preview`. -/
theorem exec_builds_spec_vector (env : Env) (p q : Plugin) (files : Files)
    (hq : checkAndFixParams p = (q, none))
    (hact : (activateServiceAccount env q ⟨files, []⟩).2 = none) :
    deployArgs q = specDeployArgs q ∧
    traces (Exec env p ⟨files, []⟩).1.out = [activateCmd q, q.GcloudCmd :: specDeployArgs q] ∧
    (q.Dryrun = false →
      runs (Exec env p ⟨files, []⟩).1.out = [activateCmd q, q.GcloudCmd :: specDeployArgs q]) ∧
    (∀ out : String,
      deployArgs { exampleParams with OutputFile := out } =
        ["--project", "proj1", "deployment-manager", "deployments", "update", "dep1",
          "--config", out, "--preview"]) := by
  have hw := ((activate_error_none env q _).1 hact).1
  have ha := activate_out env q (afterVerbose p ⟨files, []⟩) hw
  have hv := afterVerbose_out p files
  have hd := deployStage_out env q (activateServiceAccount env q (afterVerbose p ⟨files, []⟩)).1
  rw [Exec_of_activated env p q _ hq hact]
  refine ⟨deployArgs_eq_spec q, ?_, ?_, ?_⟩
  · rw [hd.2, ha.2, hv.2]
    simp [deployCmd, deployArgs_eq_spec]
  · intro hdry
    rw [hd.1, ha.1, hv.1]
    simp [deployCmd, deployArgs_eq_spec, hdry]
  · intro out
    rfl

theorem exec_builds_spec_vector_witness :
    traces (Exec exampleEnv exampleParams ⟨exampleFiles, []⟩).1.out =
      [activateCmd (checkAndFixParams exampleParams).1,
        (checkAndFixParams exampleParams).1.GcloudCmd ::
          specDeployArgs (checkAndFixParams exampleParams).1] :=
  (exec_builds_spec_vector exampleEnv exampleParams (checkAndFixParams exampleParams).1
    exampleFiles (Prod.ext rfl (by decide)) (by decide)).2.1

/-- C3: in dry-run mode the deployment command is traced and never run.  If `Dryrun` is set
and resolution (giving `q`) and credential activation succeed, then `Exec` returns `nil`,
the commands handed to `trace` are the activation command and then the deployment command
(so the latter exactly once), and the only external process run is the activation
command. -/
theorem dryrun_only_traces_deployment (env : Env) (p q : Plugin) (files : Files)
    (hdry : p.Dryrun = true)
    (hq : checkAndFixParams p = (q, none))
    (hact : (activateServiceAccount env q ⟨files, []⟩).2 = none) :
    (Exec env p ⟨files, []⟩).2 = none ∧
    traces (Exec env p ⟨files, []⟩).1.out = [activateCmd q, deployCmd q] ∧
    (traces (Exec env p ⟨files, []⟩).1.out).count (deployCmd q) = 1 ∧
    runs (Exec env p ⟨files, []⟩).1.out = [activateCmd q] ∧
    deployCmd q ∉ runs (Exec env p ⟨files, []⟩).1.out := by
  have hqd : q.Dryrun = true := by rw [(resolved_keeps_flags p q hq).1]; exact hdry
  have hw := ((activate_error_none env q _).1 hact).1
  have ha := activate_out env q (afterVerbose p ⟨files, []⟩) hw
  have hv := afterVerbose_out p files
  have hd := deployStage_out env q (activateServiceAccount env q (afterVerbose p ⟨files, []⟩)).1
  have hne := activateCmd_ne_deployCmd q
  rw [Exec_of_activated env p q _ hq hact]
  have ht : traces (deployStage env q
      (activateServiceAccount env q (afterVerbose p ⟨files, []⟩)).1).1.out =
      [activateCmd q, deployCmd q] := by
    rw [hd.2, ha.2, hv.2]; rfl
  have hr : runs (deployStage env q
      (activateServiceAccount env q (afterVerbose p ⟨files, []⟩)).1).1.out =
      [activateCmd q] := by
    rw [hd.1, ha.1, hv.1]; simp [hqd]
  refine ⟨?_, ht, ?_, hr, ?_⟩
  · rw [deployStage_error]; simp [hqd]
  · rw [ht]
    simp [List.count_cons, hne]
  · rw [hr]
    simp only [List.mem_singleton]
    exact fun h => hne h.symm

theorem dryrun_only_traces_deployment_witness :
    (Exec exampleEnv { exampleParams with Dryrun := true } ⟨exampleFiles, []⟩).2 = none ∧
    runs (Exec exampleEnv { exampleParams with Dryrun := true } ⟨exampleFiles, []⟩).1.out =
      [activateCmd (checkAndFixParams { exampleParams with Dryrun := true }).1] :=
  have h := dryrun_only_traces_deployment exampleEnv { exampleParams with Dryrun := true }
    (checkAndFixParams { exampleParams with Dryrun := true }).1 exampleFiles rfl
    (Prod.ext rfl (by decide)) (by decide)
  ⟨h.1, h.2.2.2.1⟩

/-- C4, as stated, fails: when `os.Remove` fails the run only prints a warning.  In the run
below everything else succeeds, `Exec` returns `nil`, and the key file is still there,
holding the token. -/
theorem key_file_left_when_removal_fails :
    (Exec envRemoveFails exampleParams ⟨exampleFiles, []⟩).2 = none ∧
    (Exec envRemoveFails exampleParams ⟨exampleFiles, []⟩).1.files "/tmp/gcloud.json" =
      some "\x7b\"project_id\":\"proj0\"\x7d" ∧
    (Exec envRemoveFails exampleParams ⟨exampleFiles, []⟩).1.files "/tmp/gcloud.json" ≠
      none := by
  refine ⟨?_, ?_, ?_⟩ <;> decide

/-- C4, amended: in every run of `Exec` that gets as far as writing the key file
(resolution succeeds and `ioutil.WriteFile` succeeds), whose deferred `os.Remove` does not
fail and whose `OutputFile` is not the key path itself, no file exists at
`/tmp/gcloud.json` when `Exec` returns, whether the activation, the interpolation or the
deployment succeed or fail. -/
theorem key_file_removed (env : Env) (p q : Plugin) (files : Files)
    (hq : checkAndFixParams p = (q, none))
    (hw : env.writeToken = .ok)
    (hr : env.removeToken = none)
    (ho : p.OutputFile ≠ "/tmp/gcloud.json") :
    (Exec env p ⟨files, []⟩).1.files "/tmp/gcloud.json" = none := by
  have hqo : q.OutputFile ≠ keyPath := by rw [(resolved_keeps_flags p q hq).2.1]; exact ho
  have hf := activate_files env q (afterVerbose p ⟨files, []⟩) hw hr
  rw [Exec_of_resolved env p q _ hq]
  cases hres : activateServiceAccount env q (afterVerbose p ⟨files, []⟩) with
  | mk w1 e =>
    rw [hres] at hf
    cases e with
    | some err => exact hf
    | none =>
      show (deployStage env q w1).1.files keyPath = none
      rw [deployStage_files env q w1 keyPath hqo]
      exact hf

theorem key_file_removed_witness :
    (Exec exampleEnv exampleParams ⟨exampleFiles, []⟩).1.files "/tmp/gcloud.json" = none :=
  key_file_removed exampleEnv exampleParams (checkAndFixParams exampleParams).1 exampleFiles
    (Prod.ext rfl (by decide)) rfl rfl (by decide)

end DroneGdm
